import Mathlib

/-!
Shallow embedding of the Xenomai nucleus pod services (pod.c) for the
iothinx-4530-xenomai repository.  Thread state and info masks are modelled
as finite sets of named bits; bit-mask operations of the C source (`|`,
`& ~`, `&`) become set union, difference and intersection.  External
collaborators (timer wheel, synchronization layer, scheduler class,
architecture layer) are abstracted: their effect on the fields the claims
talk about is either modelled explicitly (xnsynch_forget_sleeper) or is
a no-op on those fields, as documented at each site.
-/

namespace XenoPod

/-- Thread state bits, from nucleus/thread.h (header outside this tree;
only the identity of the bits and the groupings below matter). -/
inductive StateBit where
  | XNSUSP | XNPEND | XNDELAY | XNREADY | XNDORMANT | XNZOMBIE
  | XNRESTART | XNSTARTED | XNMAPPED | XNRELAX | XNMIGRATE | XNHELD
  | XNBOOST | XNDEBUG | XNLOCK | XNRRB | XNASDI | XNSHIELD
  | XNTRAPSW | XNRPIOFF | XNFPU | XNSHADOW | XNROOT
deriving DecidableEq

/-- Thread information bits (one-shot wakeup outcomes), from nucleus/thread.h. -/
inductive InfoBit where
  | XNTIMEO | XNRMID | XNBREAK | XNKICKED | XNWAKEN | XNROBBED
  | XNATOMIC | XNAFFSET | XNPRIOSET
deriving DecidableEq

open StateBit InfoBit

/-- The blocking bits: `XNTHREAD_BLOCK_BITS` per the specification
(SUSP, DELAY, PEND, DORMANT, RELAX). -/
def XNTHREAD_BLOCK_BITS : Finset StateBit :=
  {XNSUSP, XNPEND, XNDELAY, XNDORMANT, XNRELAX}

/-- The mode bits: `XNTHREAD_MODE_BITS` per the xnpod_set_thread_mode
doc comment (LOCK, RRB, ASDI, SHIELD, RPIOFF). -/
def XNTHREAD_MODE_BITS : Finset StateBit :=
  {XNLOCK, XNRRB, XNASDI, XNSHIELD, XNRPIOFF}

/-- Timeout modes of xntimer_start (see xnpod_suspend_thread parameters). -/
inductive XnTmode where
  | XN_RELATIVE | XN_ABSOLUTE | XN_REALTIME
deriving DecidableEq

/-- XN_INFINITE is the null tick count. -/
def XN_INFINITE : Nat := 0

/-- Linux error numbers used by pod.c, returned negated. -/
def EPERM : Int := 1
def EINTR : Int := 4
def EWOULDBLOCK : Int := 11
def ENOMEM : Int := 12
def EBUSY : Int := 16
def EINVAL : Int := 22
def ETIMEDOUT : Int := 110

/-- Thread control block: the fields of struct xnthread that the verified
services read or write.  `wchan` is the pended synchronization object
(`none` = NULL); priorities are signed as in the C source. -/
structure XnThread where
  state : Finset StateBit
  info : Finset InfoBit
  wchan : Option Nat
  bprio : Int
  cprio : Int
  iprio : Int
  rrperiod : Nat
  rrcredit : Nat
  imask : Int
  imode : Finset StateBit
  lockCount : Nat
  affinity : Finset Nat
  entry : Nat
  cookie : Nat
  userTask : Bool
deriving DecidableEq

/-- Modelled from the spec: xnsynch_forget_sleeper (synch.c is not in the
tree).  Per the spec invariant `PEND ⟺ wchan ≠ null` and its use in the
resume decision table, forgetting a sleeper detaches the thread from its
wait channel: the XNPEND condition is cleared together with `wchan`. -/
def xnsynch_forget_sleeper (t : XnThread) : XnThread :=
  { t with state := t.state \ {XNPEND}, wchan := none }

/-- Result of xnpod_resume_thread: the updated thread, plus whether the
thread was (re)enqueued as READY and the slot's resched bit set. -/
structure ResumeResult where
  thread : XnThread
  readied : Bool
deriving DecidableEq

/-- The `clear_wchan` / `enqueue` epilogue of xnpod_resume_thread
(labels clear_wchan and enqueue in pod.c): forget the sleeper when the
effective mask reaches beyond XNDELAY and a wait channel is armed, then
enqueue the thread, set XNREADY and the slot's resched bit. -/
def resumeEnqueue (t : XnThread) (mask : Finset StateBit) : ResumeResult :=
  let t1 := if mask \ {XNDELAY} ≠ ∅ ∧ t.wchan.isSome then xnsynch_forget_sleeper t else t
  { thread := { t1 with state := t1.state ∪ {XNREADY} }, readied := true }

/-- xnpod_resume_thread (pod.c).  `xntimer_stop` and the scheduler-class
queue operations affect no modelled field; `xnsched_set_resched` is
reported through `readied`. -/
def xnpod_resume_thread (t : XnThread) (mask : Finset StateBit) : ResumeResult :=
  if t.state ∩ XNTHREAD_BLOCK_BITS = ∅ then
    -- Already runnable: dequeue if READY, then re-enqueue (manual round-robin).
    { thread := { t with state := t.state ∪ {XNREADY} }, readied := true }
  else
    let t1 : XnThread := { t with state := t.state \ mask }
    if t1.state ∩ XNTHREAD_BLOCK_BITS = ∅ then
      resumeEnqueue t1 mask
    else if XNDELAY ∈ mask then
      -- mask = xnthread_test_state(thread, XNPEND)
      if XNPEND ∉ t1.state then { thread := t1, readied := false }
      else if t1.wchan.isSome then
        let t2 := xnsynch_forget_sleeper t1
        if t2.state ∩ XNTHREAD_BLOCK_BITS ≠ ∅ then { thread := t2, readied := false }
        else resumeEnqueue t2 {XNPEND}
      else resumeEnqueue t1 {XNPEND}
    else if XNDELAY ∈ t1.state then
      let t2 : XnThread :=
        if XNPEND ∈ mask then { t1 with state := t1.state \ {XNDELAY} } else t1
      if t2.state ∩ XNTHREAD_BLOCK_BITS ≠ ∅ then { thread := t2, readied := false }
      else resumeEnqueue t2 mask
    else
      -- Still suspended, but no more pending on a resource.
      let t2 := if XNPEND ∈ mask ∧ t1.wchan.isSome then xnsynch_forget_sleeper t1 else t1
      { thread := t2, readied := false }

/-- Result of xnpod_suspend_thread: the updated thread, whether the
slot's resched bit was set, whether xnpod_schedule was entered, and
whether a relaxed shadow was signalled (xnshadow_suspend). -/
structure SuspendResult where
  thread : XnThread
  resched : Bool
  scheduled : Bool
  shadowSignalled : Bool
deriving DecidableEq

/-- Tail of xnpod_suspend_thread after the timer handling: dequeue and
clear READY, OR the suspension mask in, store the wait channel, then
either reschedule (current thread) or signal a relaxed shadow. -/
def suspendApply (t : XnThread) (mask : Finset StateBit) (wchan : Option Nat)
    (isCurr resched : Bool) : SuspendResult :=
  let t1 : XnThread :=
    if XNREADY ∈ t.state then { t with state := t.state \ {XNREADY} } else t
  let t2 : XnThread := { t1 with state := t1.state ∪ mask }
  let t3 : XnThread := if wchan.isSome then { t2 with wchan := wchan } else t2
  if isCurr then
    { thread := t3, resched := resched, scheduled := true, shadowSignalled := false }
  else if t3.state ∩ {XNSHADOW, XNRELAX, XNDORMANT} = ({XNSHADOW, XNRELAX} : Finset StateBit)
          ∧ mask ∩ {XNDELAY, XNSUSP} ≠ ∅ then
    { thread := t3, resched := resched, scheduled := false, shadowSignalled := true }
  else
    { thread := t3, resched := resched, scheduled := false, shadowSignalled := false }

/-- The timer-arming stage of xnpod_suspend_thread, entered once the
kicked-shadow early exit and the info-bit housekeeping are behind:
arm the resume timer for a non-infinite timeout (bailing out with
XNTIMEO on a past absolute date), set XNDELAY on success, then fall
through to the common suspension tail. -/
def suspendTimer (t : XnThread) (mask : Finset StateBit)
    (timeout : Nat) (timeout_mode : XnTmode) (wchan : Option Nat)
    (isCurr pastDeadline resched : Bool) : SuspendResult :=
  if timeout ≠ XN_INFINITE ∨ timeout_mode ≠ XnTmode.XN_RELATIVE then
    if pastDeadline then
      -- (absolute) timeout value in the past, bail out.
      let t2 := if wchan.isSome then xnsynch_forget_sleeper { t with wchan := wchan } else t
      { thread := { t2 with info := t2.info ∪ {XNTIMEO} },
        resched := resched, scheduled := false, shadowSignalled := false }
    else
      suspendApply { t with state := t.state ∪ {XNDELAY} } mask wchan isCurr resched
  else
    suspendApply t mask wchan isCurr resched

/-- xnpod_suspend_thread (pod.c), CONFIG_XENO_OPT_PERVASIVE build.
`isCurr` abbreviates `thread == thread->sched->curr`; `pastDeadline`
is the verdict of xntimer_start on a non-infinite timeout (nonzero
return means the absolute date is already in the past).  The
xnpod_schedule call at the tail does not touch the target's fields. -/
def xnpod_suspend_thread (t : XnThread) (mask : Finset StateBit)
    (timeout : Nat) (timeout_mode : XnTmode) (wchan : Option Nat)
    (isCurr pastDeadline : Bool) : SuspendResult :=
  let resched := isCurr
  if t.state ∩ XNTHREAD_BLOCK_BITS = ∅ ∧ XNKICKED ∈ t.info then
    -- Runnable shadow holding a Linux signal: raise XNBREAK and leave.
    { thread := { t with info := (t.info \ {XNRMID, XNTIMEO}) ∪ {XNBREAK} },
      resched := resched, scheduled := false, shadowSignalled := false }
  else
    let t1 : XnThread :=
      if t.state ∩ XNTHREAD_BLOCK_BITS = ∅ then
        { t with info := t.info \ {XNRMID, XNTIMEO, XNBREAK, XNWAKEN, XNROBBED} }
      else t
    suspendTimer t1 mask timeout timeout_mode wchan isCurr pastDeadline resched

/-- Result of xnpod_unblock_thread. -/
structure UnblockResult where
  thread : XnThread
  ret : Int
deriving DecidableEq

/-- xnpod_unblock_thread (pod.c): abort an undergoing DELAY wait in
preference to a PEND wait, raising XNBREAK exactly when something was
unblocked. -/
def xnpod_unblock_thread (t : XnThread) : UnblockResult :=
  if XNDELAY ∈ t.state then
    let r := xnpod_resume_thread t {XNDELAY}
    { thread := { r.thread with info := r.thread.info ∪ {XNBREAK} }, ret := 1 }
  else if XNPEND ∈ t.state then
    let r := xnpod_resume_thread t {XNPEND}
    { thread := { r.thread with info := r.thread.info ∪ {XNBREAK} }, ret := 1 }
  else
    { thread := t, ret := 0 }

/-- Result of xnpod_start_thread. -/
structure StartResult where
  thread : XnThread
  err : Int
  scheduled : Bool
  startHooksFired : Bool
  shadowStarted : Bool
deriving DecidableEq

/-- xnpod_start_thread (pod.c).  `online` is xnarch_cpu_online_map and
`nkaff` the global nkaffinity mask; `ishield` reflects
CONFIG_XENO_OPT_ISHIELD; `startHooksNonempty` is `!emptyq_p(&nkpod->tstartq)`.
xnarch_init_thread and the SMP slot rebinding touch no modelled field. -/
def xnpod_start_thread (t : XnThread) (mode : Finset StateBit) (imask : Int)
    (affinity : Finset Nat) (entry cookie : Nat)
    (online nkaff : Finset Nat) (ishield startHooksNonempty : Bool) : StartResult :=
  if XNDORMANT ∉ t.state then
    { thread := t, err := -EBUSY, scheduled := false,
      startHooksFired := false, shadowStarted := false }
  else
    let affinity := affinity ∩ nkaff
    let t1 : XnThread := { t with affinity := affinity ∩ online }
    if t1.affinity = ∅ then
      { thread := t1, err := -EINVAL, scheduled := false,
        startHooksFired := false, shadowStarted := false }
    else if XNSTARTED ∈ t1.state then
      { thread := t1, err := -EBUSY, scheduled := false,
        startHooksFired := false, shadowStarted := false }
    else
      let mode := if ishield then mode else mode \ {XNSHIELD}
      let t2 : XnThread :=
        { t1 with
          state := t1.state ∪ (mode ∩ (XNTHREAD_MODE_BITS ∪ {XNSUSP})) ∪ {XNSTARTED},
          imask := imask, imode := mode ∩ XNTHREAD_MODE_BITS,
          entry := entry, cookie := cookie }
      let t3 : XnThread :=
        if XNRRB ∈ t2.state then { t2 with rrcredit := t2.rrperiod } else t2
      if XNSHADOW ∈ t3.state then
        -- xnshadow_start + xnpod_schedule; the shadow bridge wakes the mate.
        { thread := t3, err := 0, scheduled := true,
          startHooksFired := false, shadowStarted := true }
      else
        let r := xnpod_resume_thread t3 {XNDORMANT}
        { thread := r.thread, err := 0, scheduled := true,
          startHooksFired := startHooksNonempty ∧ XNROOT ∉ r.thread.state,
          shadowStarted := false }

/-- The per-CPU scheduler slot fields read or written by the verified
services.  `swlock` is the XNSWLOCK status bit of an unlocked switch. -/
structure XnSched where
  resched : Bool
  fpuholder : Option Nat
  swlock : Bool
deriving DecidableEq

/-- The pod fields read or written by the verified services: the
global thread list (by thread id) and its revision counter. -/
structure XnPod where
  threadq : List Nat
  threadqRev : Nat
deriving DecidableEq

/-- Result of xnpod_delete_thread. -/
structure DeleteResult where
  thread : XnThread
  pod : XnPod
  sched : XnSched
  scheduled : Bool
  deleteHooksFired : Bool
  cleanedUp : Bool
  signalSent : Bool
deriving DecidableEq

/-- xnpod_delete_thread (pod.c), CONFIG_XENO_OPT_PERVASIVE and
CONFIG_XENO_HW_UNLOCKED_SWITCH build.  `tid` identifies the target in
the pod thread list and FPU-holder slot; `isCurr` abbreviates both
`sched->curr == thread` and xnpod_current_p; `userspaceCaller` is
xnpod_userspace_p(); `deleteHooksNonempty` is `!emptyq_p(&nkpod->tdeleteq)`.
xntimer_destroy and xnsynch_release_all_ownerships touch no modelled
field; xnthread_cleanup_tcb / xnarch_finalize_no_switch are reported
through `cleanedUp`. -/
def xnpod_delete_thread (t : XnThread) (tid : Nat) (pod : XnPod) (sched : XnSched)
    (isCurr userspaceCaller deleteHooksNonempty : Bool) : DeleteResult :=
  if XNZOMBIE ∈ t.state then
    -- No double-deletion.
    { thread := t, pod := pod, sched := sched, scheduled := false,
      deleteHooksFired := false, cleanedUp := false, signalSent := false }
  else if t.userTask ∧ XNDORMANT ∉ t.state ∧ ¬isCurr then
    -- Deferred deletion of an active user-space shadow: kill the mate.
    { thread := t, pod := pod, sched := sched, scheduled := false,
      deleteHooksFired := false, cleanedUp := false, signalSent := ¬userspaceCaller }
  else
    let pod1 : XnPod := { threadq := pod.threadq.erase tid, threadqRev := pod.threadqRev + 1 }
    let t1 : XnThread :=
      if XNREADY ∈ t.state then { t with state := t.state \ {XNREADY} } else t
    let t2 : XnThread := if XNPEND ∈ t1.state then xnsynch_forget_sleeper t1 else t1
    let sched1 : XnSched :=
      if sched.fpuholder = some tid then { sched with fpuholder := none } else sched
    let t3 : XnThread := { t2 with state := t2.state ∪ {XNZOMBIE} }
    if isCurr then
      { thread := t3, pod := pod1, sched := { sched1 with resched := true },
        scheduled := true, deleteHooksFired := false, cleanedUp := false,
        signalSent := false }
    else if ¬sched1.swlock ∧ XNMIGRATE ∉ t3.state then
      { thread := t3, pod := pod1, sched := sched1, scheduled := false,
        deleteHooksFired := deleteHooksNonempty ∧ XNROOT ∉ t3.state,
        cleanedUp := true, signalSent := false }
    else
      { thread := t3, pod := pod1, sched := sched1, scheduled := false,
        deleteHooksFired := false, cleanedUp := false, signalSent := false }

/-- xnpod_renice_thread_inner (pod.c).  xnsynch_renice_sleeper and
xnsched_putback reorder external queues and touch no modelled thread
field; the CONFIG_XENO_OPT_PERVASIVE propagation tail raises XNPRIOSET
on a non-relaxed shadow. -/
def xnpod_renice_thread_inner (t : XnThread) (prio : Int) (propagate : Bool) : XnThread :=
  let oldprio := t.cprio
  let t1 : XnThread := { t with bprio := prio }
  let t2 : XnThread :=
    if XNBOOST ∉ t1.state ∨ prio > oldprio then { t1 with cprio := prio } else t1
  if propagate then
    if XNRELAX ∈ t2.state then t2  -- xnshadow_renice
    else if XNSHADOW ∈ t2.state then { t2 with info := t2.info ∪ {XNPRIOSET} }
    else t2
  else t2

/-- xnpod_renice_thread (pod.c). -/
def xnpod_renice_thread (t : XnThread) (prio : Int) : XnThread :=
  xnpod_renice_thread_inner t prio true

/-- xnpod_set_thread_mode (pod.c).  Returns the updated thread and the
previous mode bits.  `ishield` reflects CONFIG_XENO_OPT_ISHIELD;
xnpod_lock_sched on the current thread is modelled as bumping the
thread's scheduler-lock nesting count. -/
def xnpod_set_thread_mode (t : XnThread) (clrmask setmask : Finset StateBit)
    (isCurr ishield : Bool) : XnThread × Finset StateBit :=
  let setmask := if ishield then setmask else setmask \ {XNSHIELD}
  let oldmode := t.state ∩ XNTHREAD_MODE_BITS
  let t1 : XnThread :=
    { t with state := (t.state \ (clrmask ∩ XNTHREAD_MODE_BITS))
                        ∪ (setmask ∩ XNTHREAD_MODE_BITS) }
  let t2 : XnThread :=
    if isCurr then
      if XNLOCK ∉ oldmode then
        if XNLOCK ∈ t1.state then { t1 with lockCount := t1.lockCount + 1 } else t1
      else if XNLOCK ∉ t1.state then { t1 with lockCount := 0 } else t1
    else t1
  let t3 : XnThread :=
    if XNRRB ∉ oldmode ∧ XNRRB ∈ t2.state then { t2 with rrcredit := t2.rrperiod } else t2
  (t3, oldmode)

/-- Hook types (nucleus/pod.h). -/
def XNHOOK_THREAD_START : Nat := 1
def XNHOOK_THREAD_SWITCH : Nat := 2
def XNHOOK_THREAD_DELETE : Nat := 3

/-- The three pod hook queues, each a list of routine identifiers in
queue order (head of the list = head of the xnqueue). -/
structure HookQueues where
  tstartq : List Nat
  tswitchq : List Nat
  tdeleteq : List Nat
deriving DecidableEq

/-- The switch(type) hook-queue selector shared by xnpod_add_hook and
xnpod_remove_hook; `none` for an unknown type. -/
def hookqOf (q : HookQueues) (type : Nat) : Option (List Nat) :=
  if type = XNHOOK_THREAD_START then some q.tstartq
  else if type = XNHOOK_THREAD_SWITCH then some q.tswitchq
  else if type = XNHOOK_THREAD_DELETE then some q.tdeleteq
  else none

/-- Write back the selected hook queue. -/
def setHookq (q : HookQueues) (type : Nat) (l : List Nat) : HookQueues :=
  if type = XNHOOK_THREAD_START then { q with tstartq := l }
  else if type = XNHOOK_THREAD_SWITCH then { q with tswitchq := l }
  else if type = XNHOOK_THREAD_DELETE then { q with tdeleteq := l }
  else q

/-- xnpod_add_hook (pod.c).  Modelled from the spec: the queue primitive
prependq (nucleus/queue.h is not in the tree) inserts the new holder at
the head of the queue, per the spec's "hook queues are prepended".
`allocOk` is the xnmalloc verdict. -/
def xnpod_add_hook (q : HookQueues) (type routine : Nat) (allocOk : Bool) :
    HookQueues × Int :=
  match hookqOf q type with
  | none => (q, -EINVAL)
  | some l => if allocOk then (setHookq q type (routine :: l), 0) else (q, -ENOMEM)

/-- xnpod_fire_callouts (pod.c).  Modelled from the spec: getheadq and
nextq (nucleus/queue.h is not in the tree) walk the queue from its head
towards its tail.  Returns the routines in invocation order. -/
def xnpod_fire_callouts : List Nat → List Nat
  | [] => []
  | h :: rest => h :: xnpod_fire_callouts rest

/-- The removal loop of xnpod_remove_hook: walk the queue from the head,
remove the first holder whose routine matches; `none` when the routine
was never registered. -/
def removeHookLoop (l : List Nat) (routine : Nat) : Option (List Nat) :=
  match l with
  | [] => none
  | h :: rest =>
      if h = routine then some rest
      else (removeHookLoop rest routine).map (fun r => h :: r)

/-- xnpod_remove_hook (pod.c). -/
def xnpod_remove_hook (q : HookQueues) (type routine : Nat) : HookQueues × Int :=
  match hookqOf q type with
  | none => (q, -EINVAL)
  | some l =>
      match removeHookLoop l routine with
      | none => (q, -EINVAL)
      | some l2 => (setHookq q type l2, 0)

/-- Result of xnpod_wait_thread_period: the return code, the value
written through overruns_r (`none` = location untouched), and whether
the caller suspended on XNDELAY. -/
structure WaitPeriodResult where
  err : Int
  overrunsOut : Option Nat
  slept : Bool
deriving DecidableEq

/-- xnpod_wait_thread_period (pod.c).  `ptimerRunning` is
xntimer_running_p(&thread->ptimer); `now` and `pexpect` are the raw
clock and xntimer_pexpect readings (the C comparison is signed);
`breakAfterSleep` is whether XNBREAK is found in the caller's info mask
after the XNDELAY suspension; `overruns` is the xntimer_get_overruns
verdict; `hasPtr` is `overruns_r != NULL`. -/
def xnpod_wait_thread_period (ptimerRunning : Bool) (now pexpect : Int)
    (breakAfterSleep : Bool) (overruns : Nat) (hasPtr : Bool) : WaitPeriodResult :=
  if ¬ptimerRunning then
    { err := -EWOULDBLOCK, overrunsOut := none, slept := false }
  else if now - pexpect < 0 then
    -- xnpod_suspend_thread(thread, XNDELAY, XN_INFINITE, XN_RELATIVE, NULL)
    if breakAfterSleep then
      { err := -EINTR, overrunsOut := none, slept := true }
    else if overruns ≠ 0 then
      { err := -ETIMEDOUT, overrunsOut := if hasPtr then some overruns else none,
        slept := true }
    else
      { err := 0, overrunsOut := if hasPtr then some 0 else none, slept := true }
  else if overruns ≠ 0 then
    { err := -ETIMEDOUT, overrunsOut := if hasPtr then some overruns else none,
      slept := false }
  else
    { err := 0, overrunsOut := if hasPtr then some 0 else none, slept := false }

/-- The admissible operations of claim C1, with the call parameters and
the environment facts each embedded service consumes. -/
inductive PodOp where
  | suspend (mask : Finset StateBit) (timeout : Nat) (tmode : XnTmode)
      (wchan : Option Nat) (isCurr pastDeadline : Bool)
  | resume (mask : Finset StateBit)
  | unblock
  | start (mode : Finset StateBit) (imask : Int) (affinity : Finset Nat)
      (entry cookie : Nat) (online nkaff : Finset Nat)
      (ishield startHooksNonempty : Bool)
  | delete (tid : Nat) (pod : XnPod) (sched : XnSched)
      (isCurr userspaceCaller deleteHooksNonempty : Bool)

/-- Apply an operation to a thread, projecting the thread component of
the operation's result. -/
def applyOp (op : PodOp) (t : XnThread) : XnThread :=
  match op with
  | .suspend mask timeout tmode wchan isCurr pastDeadline =>
      (xnpod_suspend_thread t mask timeout tmode wchan isCurr pastDeadline).thread
  | .resume mask => (xnpod_resume_thread t mask).thread
  | .unblock => (xnpod_unblock_thread t).thread
  | .start mode imask affinity entry cookie online nkaff ishield hooks =>
      (xnpod_start_thread t mode imask affinity entry cookie online nkaff ishield hooks).thread
  | .delete tid pod sched isCurr usp hooks =>
      (xnpod_delete_thread t tid pod sched isCurr usp hooks).thread

/-- Admissibility of a call, per the suspend-service contract: the
suspension mask names blocking conditions, and a pend is always armed
together with its wait channel (the synchronization layer passes the
pended object whenever XNPEND is in the mask). -/
def AdmissibleOp : PodOp → Prop
  | .suspend mask _ _ wchan _ _ =>
      mask ⊆ XNTHREAD_BLOCK_BITS ∧ (XNPEND ∈ mask → wchan.isSome = true)
  | _ => True

instance : DecidablePred AdmissibleOp := by
  intro op; cases op <;> simp [AdmissibleOp] <;> infer_instance

/-- The claimed exclusion: READY is never set together with a blocking bit. -/
def readyBlockOK (t : XnThread) : Prop :=
  XNREADY ∈ t.state → t.state ∩ XNTHREAD_BLOCK_BITS = ∅

/-- The companion documented invariant: a pending thread has a wait channel. -/
def pendWchanOK (t : XnThread) : Prop :=
  XNPEND ∈ t.state → t.wchan ≠ none

/-- The inductive thread invariant of claim C1. -/
def threadInv (t : XnThread) : Prop := readyBlockOK t ∧ pendWchanOK t

instance (t : XnThread) : Decidable (readyBlockOK t) := by
  unfold readyBlockOK; infer_instance

instance (t : XnThread) : Decidable (pendWchanOK t) := by
  unfold pendWchanOK; infer_instance

instance (t : XnThread) : Decidable (threadInv t) := by
  unfold threadInv; infer_instance

/-- Fold a sequence of operations over a thread. -/
def applyOps (ops : List PodOp) (t : XnThread) : XnThread :=
  ops.foldl (fun s op => applyOp op s) t

/-- A reference thread record used by the concrete test vectors. -/
def baseThread : XnThread :=
  { state := ∅, info := ∅, wchan := none, bprio := 10, cprio := 10, iprio := 10,
    rrperiod := 0, rrcredit := 0, imask := 0, imode := ∅, lockCount := 0,
    affinity := {0}, entry := 0, cookie := 0, userTask := false }

/-- A runnable started thread carrying a pending XNBREAK notification. -/
def tBreakRunnable : XnThread := { baseThread with state := {XNSTARTED}, info := {XNBREAK} }

/-- A dormant thread that also has XNSTARTED set. -/
def tDormantStarted : XnThread := { baseThread with state := {XNDORMANT, XNSTARTED} }

/-- A thread sleeping on a timed pend (XNDELAY + XNPEND with a wait channel). -/
def tDelayPend : XnThread := { baseThread with state := {XNDELAY, XNPEND}, wchan := some 7 }

/-- A zombie thread awaiting finalization. -/
def tZombie : XnThread := { baseThread with state := {XNZOMBIE, XNSTARTED} }

/-- A freshly initialized dormant thread. -/
def tDormant : XnThread := { baseThread with state := {XNDORMANT} }

/-!
Theorems.
-/

/-- C5: xnpod_delete_thread is idempotent on an already-ZOMBIE target:
if XNZOMBIE is already set the call returns immediately, leaving the
thread, the pod thread list and the scheduler slot unchanged and firing
no hook, cleanup or signal. -/
theorem delete_thread_zombie_noop (t : XnThread) (tid : Nat) (pod : XnPod)
    (sched : XnSched) (isCurr usp hooks : Bool) (h : XNZOMBIE ∈ t.state) :
    xnpod_delete_thread t tid pod sched isCurr usp hooks =
      { thread := t, pod := pod, sched := sched, scheduled := false,
        deleteHooksFired := false, cleanedUp := false, signalSent := false } := by
  unfold xnpod_delete_thread
  rw [if_pos h]

/-- Concrete run of the C5 theorem on a zombie thread. -/
theorem delete_thread_zombie_noop_witness :
    XNZOMBIE ∈ tZombie.state ∧
    xnpod_delete_thread tZombie 3 ⟨[3], 5⟩ ⟨false, some 3, false⟩ false false true =
      { thread := tZombie, pod := ⟨[3], 5⟩, sched := ⟨false, some 3, false⟩,
        scheduled := false, deleteHooksFired := false, cleanedUp := false,
        signalSent := false } :=
  ⟨by decide,
   delete_thread_zombie_noop tZombie 3 ⟨[3], 5⟩ ⟨false, some 3, false⟩ false false true
     (by decide)⟩

/-- C7: xnpod_renice_thread always writes the new priority to bprio, and
writes it to cprio exactly when the thread is not undergoing a
priority-inheritance boost or the new priority exceeds the old current
priority; otherwise cprio keeps its old value. -/
theorem renice_thread_prio (t : XnThread) (prio : Int) :
    (xnpod_renice_thread t prio).bprio = prio ∧
    (xnpod_renice_thread t prio).cprio =
      (if XNBOOST ∉ t.state ∨ prio > t.cprio then prio else t.cprio) := by
  simp only [xnpod_renice_thread, xnpod_renice_thread_inner]
  split_ifs <;> simp_all

/-- C2 (code bug): registering routine 1 then routine 2 for the
THREAD_START event succeeds, yet firing the start callouts invokes
routine 2 first — last-registered-first-called, not the FIFO order the
service's own documentation promises. -/
theorem add_hook_fire_order_lifo :
    (xnpod_add_hook ⟨[], [], []⟩ XNHOOK_THREAD_START 1 true).2 = 0 ∧
    (xnpod_add_hook (xnpod_add_hook ⟨[], [], []⟩ XNHOOK_THREAD_START 1 true).1
        XNHOOK_THREAD_START 2 true).2 = 0 ∧
    xnpod_fire_callouts
        ((xnpod_add_hook (xnpod_add_hook ⟨[], [], []⟩ XNHOOK_THREAD_START 1 true).1
            XNHOOK_THREAD_START 2 true).1).tstartq = [2, 1] := by
  decide

/-- C8: xnpod_wait_thread_period returns -EWOULDBLOCK exactly when the
periodic timer is not running; a broken XNDELAY suspension yields -EINTR
with the overrun location untouched; otherwise a nonzero overrun count
yields -ETIMEDOUT with the count written back, and zero overruns yield
success with zero written back. -/
theorem wait_thread_period_spec (running : Bool) (now pexpect : Int)
    (brk : Bool) (overruns : Nat) (hasPtr : Bool) :
    ((xnpod_wait_thread_period running now pexpect brk overruns hasPtr).err
        = -EWOULDBLOCK ↔ running = false) ∧
    (running = true → now - pexpect < 0 → brk = true →
      xnpod_wait_thread_period running now pexpect brk overruns hasPtr
        = ⟨-EINTR, none, true⟩) ∧
    (running = true → (now - pexpect < 0 → brk = false) → overruns ≠ 0 →
      (xnpod_wait_thread_period running now pexpect brk overruns hasPtr).err
          = -ETIMEDOUT ∧
      (xnpod_wait_thread_period running now pexpect brk overruns hasPtr).overrunsOut
          = (if hasPtr then some overruns else none)) ∧
    (running = true → (now - pexpect < 0 → brk = false) → overruns = 0 →
      (xnpod_wait_thread_period running now pexpect brk overruns hasPtr).err = 0 ∧
      (xnpod_wait_thread_period running now pexpect brk overruns hasPtr).overrunsOut
          = (if hasPtr then some 0 else none)) := by
  unfold xnpod_wait_thread_period EWOULDBLOCK EINTR ETIMEDOUT
  split_ifs <;> simp_all

/-- Concrete run of the C8 theorem: a stopped periodic timer is refused. -/
theorem wait_thread_period_witness :
    (xnpod_wait_thread_period false 0 0 false 0 true).err = -EWOULDBLOCK :=
  (wait_thread_period_spec false 0 0 false 0 true).1.mpr rfl

/-- The state mask produced by xnpod_set_thread_mode, independent of the
scheduler-lock and round-robin housekeeping branches. -/
theorem set_thread_mode_state (t : XnThread) (clrmask setmask : Finset StateBit)
    (isCurr ishield : Bool) :
    (xnpod_set_thread_mode t clrmask setmask isCurr ishield).1.state =
      (t.state \ (clrmask ∩ XNTHREAD_MODE_BITS))
        ∪ ((if ishield then setmask else setmask \ {XNSHIELD}) ∩ XNTHREAD_MODE_BITS) := by
  simp only [xnpod_set_thread_mode]
  split_ifs <;> rfl

/-- C9: xnpod_set_thread_mode returns the thread's previous mode bits,
changes no state bit outside XNTHREAD_MODE_BITS, and ignores the bits
of either mask that fall outside XNTHREAD_MODE_BITS: masking both
arguments to the mode-bit set gives the identical result. -/
theorem set_thread_mode_frame (t : XnThread) (clrmask setmask : Finset StateBit)
    (isCurr ishield : Bool) :
    (xnpod_set_thread_mode t clrmask setmask isCurr ishield).2
        = t.state ∩ XNTHREAD_MODE_BITS ∧
    (xnpod_set_thread_mode t clrmask setmask isCurr ishield).1.state
          \ XNTHREAD_MODE_BITS
        = t.state \ XNTHREAD_MODE_BITS ∧
    xnpod_set_thread_mode t (clrmask ∩ XNTHREAD_MODE_BITS)
        (setmask ∩ XNTHREAD_MODE_BITS) isCurr ishield
      = xnpod_set_thread_mode t clrmask setmask isCurr ishield := by
  have h1 : (clrmask ∩ XNTHREAD_MODE_BITS) ∩ XNTHREAD_MODE_BITS
      = clrmask ∩ XNTHREAD_MODE_BITS := by
    rw [Finset.inter_assoc, Finset.inter_self]
  have h2 : (if ishield then setmask ∩ XNTHREAD_MODE_BITS
        else (setmask ∩ XNTHREAD_MODE_BITS) \ {XNSHIELD}) ∩ XNTHREAD_MODE_BITS
      = (if ishield then setmask else setmask \ {XNSHIELD}) ∩ XNTHREAD_MODE_BITS := by
    split_ifs
    · rw [Finset.inter_assoc, Finset.inter_self]
    · ext x
      simp only [Finset.mem_inter, Finset.mem_sdiff, Finset.mem_singleton]
      tauto
  refine ⟨rfl, ?_, ?_⟩
  · rw [set_thread_mode_state]
    ext x
    simp only [Finset.mem_sdiff, Finset.mem_union, Finset.mem_inter]
    tauto
  · simp only [xnpod_set_thread_mode, h1, h2]

/-- The removal loop fails exactly on a routine absent from the queue. -/
theorem removeHookLoop_eq_none_iff (l : List Nat) (r : Nat) :
    removeHookLoop l r = none ↔ r ∉ l := by
  induction l with
  | nil => simp [removeHookLoop]
  | cons a rest ih =>
    by_cases ha : a = r
    · simp [removeHookLoop, ha]
    · simp [removeHookLoop, ha, ih, Ne.symm ha]

/-- The removal loop removes exactly the first matching record. -/
theorem removeHookLoop_mem (l : List Nat) (r : Nat) (h : r ∈ l) :
    removeHookLoop l r = some (l.erase r) := by
  induction l with
  | nil => cases h
  | cons a rest ih =>
    by_cases ha : a = r
    · subst ha
      simp [removeHookLoop, List.erase_cons_head]
    · have hr : r ∈ rest := by
        rcases List.mem_cons.mp h with h' | h'
        · exact absurd h'.symm ha
        · exact h'
      simp [removeHookLoop, ha, ih hr, List.erase_cons, Ne.symm ha]

/-- C10: xnpod_remove_hook fails with -EINVAL both on an unknown hook
type and on a routine never registered under a valid type, leaving all
three queues untouched in either failure case; on success it removes
exactly the first matching record of the selected queue and leaves the
other queues unchanged. -/
theorem remove_hook_spec (q : HookQueues) (type routine : Nat) :
    (hookqOf q type = none → xnpod_remove_hook q type routine = (q, -EINVAL)) ∧
    (∀ l, hookqOf q type = some l → routine ∉ l →
      xnpod_remove_hook q type routine = (q, -EINVAL)) ∧
    (∀ l, hookqOf q type = some l → routine ∈ l →
      (xnpod_remove_hook q type routine).2 = 0 ∧
      hookqOf (xnpod_remove_hook q type routine).1 type = some (l.erase routine) ∧
      (∀ ty, ty ≠ type → hookqOf (xnpod_remove_hook q type routine).1 ty
          = hookqOf q ty)) := by
  refine ⟨?_, ?_, ?_⟩
  · intro h
    unfold xnpod_remove_hook
    rw [h]
  · intro l hl hmem
    have hn := (removeHookLoop_eq_none_iff l routine).mpr hmem
    simp only [xnpod_remove_hook, hl, hn]
  · intro l hl hmem
    have hs := removeHookLoop_mem l routine hmem
    simp only [xnpod_remove_hook, hl, hs]
    refine ⟨by trivial, ?_, ?_⟩
    · unfold hookqOf at hl ⊢
      unfold setHookq
      split_ifs at hl with h1 h2 h3 <;> simp_all
    · intro ty hty
      unfold hookqOf at hl ⊢
      unfold setHookq
      split_ifs at hl with h1 h2 h3 <;> split_ifs <;> simp_all

/-- Concrete run of the C10 theorem: removing routine 5 from a start
queue holding routines 4 and 5 succeeds and keeps routine 4. -/
theorem remove_hook_witness :
    (xnpod_remove_hook ⟨[4, 5], [], []⟩ XNHOOK_THREAD_START 5).2 = 0 ∧
    hookqOf (xnpod_remove_hook ⟨[4, 5], [], []⟩ XNHOOK_THREAD_START 5).1
        XNHOOK_THREAD_START = some [4] := by
  have h := (remove_hook_spec ⟨[4, 5], [], []⟩ XNHOOK_THREAD_START 5).2.2
    [4, 5] rfl (by decide)
  exact ⟨h.1, by rw [h.2.1]; decide⟩

/-- Intersection with the block bits stays empty under shrinking. -/
theorem inter_block_empty_mono {s s' : Finset StateBit}
    (hsub : s' ⊆ s) (h : s ∩ XNTHREAD_BLOCK_BITS = ∅) :
    s' ∩ XNTHREAD_BLOCK_BITS = ∅ :=
  Finset.subset_empty.mp (h ▸ Finset.inter_subset_inter hsub (Finset.Subset.refl _))

/-- Readying a thread whose blocking bits are all clear keeps the invariant. -/
theorem threadInv_union_ready (t : XnThread)
    (h : t.state ∩ XNTHREAD_BLOCK_BITS = ∅) :
    threadInv { t with state := t.state ∪ {XNREADY} } := by
  have hx : ∀ x, x ∈ t.state → x ∉ XNTHREAD_BLOCK_BITS := fun x hx1 hx2 =>
    Finset.eq_empty_iff_forall_not_mem.mp h x (Finset.mem_inter.mpr ⟨hx1, hx2⟩)
  constructor
  · intro _
    apply Finset.eq_empty_iff_forall_not_mem.mpr
    intro x hxm
    rcases Finset.mem_inter.mp hxm with ⟨hxu, hxB⟩
    rcases Finset.mem_union.mp hxu with hxs | hxr
    · exact hx x hxs hxB
    · rw [Finset.mem_singleton.mp hxr] at hxB
      exact absurd hxB (by decide)
  · intro hp
    rcases Finset.mem_union.mp hp with hxs | hxr
    · exact absurd (by decide : XNPEND ∈ XNTHREAD_BLOCK_BITS) (hx _ hxs)
    · exact absurd (Finset.mem_singleton.mp hxr) (by decide)

/-- Clearing state bits of a non-READY thread keeps the invariant. -/
theorem threadInv_sdiff (t : XnThread) (mask : Finset StateBit)
    (hReady : XNREADY ∉ t.state) (hpw : pendWchanOK t) :
    threadInv { t with state := t.state \ mask } := by
  constructor
  · intro hr
    exact absurd (Finset.mem_sdiff.mp hr).1 hReady
  · intro hp
    exact hpw (Finset.mem_sdiff.mp hp).1

/-- Forgetting the sleeper of a non-READY thread keeps the invariant. -/
theorem threadInv_forget (t : XnThread) (hReady : XNREADY ∉ t.state) :
    threadInv (xnsynch_forget_sleeper t) := by
  constructor
  · intro hr
    exact absurd (Finset.mem_sdiff.mp hr).1 hReady
  · intro hp
    exact absurd (Finset.mem_sdiff.mp hp).2 (by simp)

/-- The resume epilogue keeps the invariant once all blocking bits are clear. -/
theorem resumeEnqueue_inv (t : XnThread) (mask : Finset StateBit)
    (h : t.state ∩ XNTHREAD_BLOCK_BITS = ∅) :
    threadInv (resumeEnqueue t mask).thread := by
  simp only [resumeEnqueue]
  split_ifs with hc
  · exact threadInv_union_ready (xnsynch_forget_sleeper t)
      (inter_block_empty_mono (by simp [xnsynch_forget_sleeper]) h)
  · exact threadInv_union_ready t h

/-- xnpod_resume_thread preserves the thread invariant. -/
theorem resume_preserves_inv (t : XnThread) (mask : Finset StateBit)
    (h : threadInv t) : threadInv (xnpod_resume_thread t mask).thread := by
  obtain ⟨hrb, hpw⟩ := h
  by_cases h1 : t.state ∩ XNTHREAD_BLOCK_BITS = ∅
  · simp only [xnpod_resume_thread, if_pos h1]
    exact threadInv_union_ready t h1
  · have hReady : XNREADY ∉ t.state := fun hr => h1 (hrb hr)
    have hReady1 : XNREADY ∉ t.state \ mask := fun hr =>
      hReady (Finset.mem_sdiff.mp hr).1
    have hpw1 : pendWchanOK { t with state := t.state \ mask } := fun hp =>
      hpw (Finset.mem_sdiff.mp hp).1
    simp only [xnpod_resume_thread, if_neg h1]
    dsimp only
    by_cases h2 : (t.state \ mask) ∩ XNTHREAD_BLOCK_BITS = ∅
    · rw [if_pos h2]
      exact resumeEnqueue_inv _ mask h2
    · rw [if_neg h2]
      by_cases h3 : XNDELAY ∈ mask
      · rw [if_pos h3]
        by_cases h4 : XNPEND ∉ t.state \ mask
        · rw [if_pos h4]
          exact threadInv_sdiff t mask hReady hpw
        · rw [if_neg h4]
          by_cases h5 : t.wchan.isSome = true
          · rw [if_pos h5]
            by_cases h6 : (xnsynch_forget_sleeper { t with state := t.state \ mask }).state
                ∩ XNTHREAD_BLOCK_BITS ≠ ∅
            · rw [if_pos h6]
              exact threadInv_forget { t with state := t.state \ mask } hReady1
            · rw [if_neg h6]
              exact resumeEnqueue_inv _ {XNPEND} (not_ne_iff.mp h6)
          · -- XNPEND set with a null wait channel: excluded by the invariant
            have hp : XNPEND ∈ t.state \ mask := not_not.mp h4
            have hw := hpw (Finset.mem_sdiff.mp hp).1
            exact absurd (Option.not_isSome_iff_eq_none.mp h5) hw
      · rw [if_neg h3]
        by_cases h7 : XNDELAY ∈ t.state \ mask
        · rw [if_pos h7]
          by_cases h8 : XNPEND ∈ mask
          · rw [if_pos h8]
            by_cases h9 : ((t.state \ mask) \ {XNDELAY}) ∩ XNTHREAD_BLOCK_BITS ≠ ∅
            · rw [if_pos h9]
              exact threadInv_sdiff { t with state := t.state \ mask } {XNDELAY} hReady1 hpw1
            · rw [if_neg h9]
              exact resumeEnqueue_inv _ mask (not_ne_iff.mp h9)
          · rw [if_neg h8]
            by_cases h9 : (t.state \ mask) ∩ XNTHREAD_BLOCK_BITS ≠ ∅
            · rw [if_pos h9]
              exact threadInv_sdiff t mask hReady hpw
            · rw [if_neg h9]
              exact resumeEnqueue_inv _ mask (not_ne_iff.mp h9)
        · rw [if_neg h7]
          by_cases h10 : XNPEND ∈ mask ∧ t.wchan.isSome = true
          · rw [if_pos h10]
            exact threadInv_forget { t with state := t.state \ mask } hReady1
          · rw [if_neg h10]
            exact threadInv_sdiff t mask hReady hpw

/-- After the suspend tail, READY is out and the added bits are blocking
bits guarded by their wait channel, so the invariant holds. -/
theorem suspendApply_inv (t : XnThread) (mask : Finset StateBit) (wchan : Option Nat)
    (isCurr resched : Bool) (hpw : pendWchanOK t)
    (hmask : mask ⊆ XNTHREAD_BLOCK_BITS) (hpm : XNPEND ∈ mask → wchan.isSome = true) :
    threadInv (suspendApply t mask wchan isCurr resched).thread := by
  have hReadyMask : XNREADY ∉ mask := fun hr =>
    absurd (hmask hr) (by decide)
  have core : ∀ t1 : XnThread, t1.state = (if XNREADY ∈ t.state
        then t.state \ {XNREADY} else t.state) ∪ mask →
      t1.wchan = (if wchan.isSome then wchan else t.wchan) → threadInv t1 := by
    intro t1 hstate hwchan
    constructor
    · intro hr
      rw [hstate] at hr
      rcases Finset.mem_union.mp hr with hrs | hrm
      · by_cases hq : XNREADY ∈ t.state
        · rw [if_pos hq] at hrs
          exact absurd (Finset.mem_sdiff.mp hrs).2 (by simp)
        · rw [if_neg hq] at hrs
          exact absurd hrs hq
      · exact absurd hrm hReadyMask
    · intro hp
      rw [hstate] at hp
      rw [hwchan]
      rcases Finset.mem_union.mp hp with hps | hpm'
      · have hpt : XNPEND ∈ t.state := by
          by_cases hq : XNREADY ∈ t.state
          · rw [if_pos hq] at hps
            exact (Finset.mem_sdiff.mp hps).1
          · rw [if_neg hq] at hps
            exact hps
        have hw := hpw hpt
        by_cases hws : wchan.isSome = true
        · rw [if_pos hws]
          exact Option.isSome_iff_ne_none.mp hws
        · rw [if_neg hws]
          exact hw
      · have hws := hpm hpm'
        rw [if_pos hws]
        exact Option.isSome_iff_ne_none.mp hws
  simp only [suspendApply]
  split_ifs <;> apply core <;> simp_all

/-- The timer stage of suspend preserves the thread invariant. -/
theorem suspendTimer_inv (t : XnThread) (mask : Finset StateBit)
    (timeout : Nat) (tmode : XnTmode) (wchan : Option Nat)
    (isCurr pastDeadline resched : Bool) (hrb : readyBlockOK t) (hpw : pendWchanOK t)
    (hmask : mask ⊆ XNTHREAD_BLOCK_BITS) (hpm : XNPEND ∈ mask → wchan.isSome = true) :
    threadInv (suspendTimer t mask timeout tmode wchan isCurr pastDeadline resched).thread := by
  simp only [suspendTimer]
  by_cases htmo : timeout ≠ XN_INFINITE ∨ tmode ≠ XnTmode.XN_RELATIVE
  · rw [if_pos htmo]
    by_cases hpast : pastDeadline = true
    · rw [if_pos hpast]
      by_cases hsome : wchan.isSome = true
      · rw [if_pos hsome]
        -- past absolute deadline, wait channel attached then forgotten
        constructor
        · intro hr
          have hr' : XNREADY ∈ t.state := (Finset.mem_sdiff.mp hr).1
          exact inter_block_empty_mono Finset.sdiff_subset (hrb hr')
        · intro hp
          exact absurd (Finset.mem_sdiff.mp hp).2 (by simp)
      · rw [if_neg hsome]
        exact ⟨hrb, hpw⟩
    · rw [if_neg hpast]
      -- timer armed: XNDELAY set before the common tail
      apply suspendApply_inv _ mask wchan isCurr _ _ hmask hpm
      intro hp
      rcases Finset.mem_union.mp hp with hps | hpd
      · exact hpw hps
      · exact absurd (Finset.mem_singleton.mp hpd) (by decide)
  · rw [if_neg htmo]
    exact suspendApply_inv _ mask wchan isCurr _ hpw hmask hpm

/-- xnpod_suspend_thread preserves the thread invariant, provided the
suspension mask names blocking conditions and a pend comes with its
wait channel. -/
theorem suspend_preserves_inv (t : XnThread) (mask : Finset StateBit)
    (timeout : Nat) (tmode : XnTmode) (wchan : Option Nat)
    (isCurr pastDeadline : Bool) (h : threadInv t)
    (hmask : mask ⊆ XNTHREAD_BLOCK_BITS) (hpm : XNPEND ∈ mask → wchan.isSome = true) :
    threadInv (xnpod_suspend_thread t mask timeout tmode wchan isCurr pastDeadline).thread := by
  obtain ⟨hrb, hpw⟩ := h
  simp only [xnpod_suspend_thread]
  by_cases hk : t.state ∩ XNTHREAD_BLOCK_BITS = ∅ ∧ XNKICKED ∈ t.info
  · rw [if_pos hk]
    exact ⟨hrb, hpw⟩
  · rw [if_neg hk]
    by_cases hc : t.state ∩ XNTHREAD_BLOCK_BITS = ∅
    · rw [if_pos hc]
      exact suspendTimer_inv _ mask timeout tmode wchan isCurr pastDeadline isCurr
        hrb hpw hmask hpm
    · rw [if_neg hc]
      exact suspendTimer_inv t mask timeout tmode wchan isCurr pastDeadline isCurr
        hrb hpw hmask hpm

/-- xnpod_unblock_thread preserves the thread invariant. -/
theorem unblock_preserves_inv (t : XnThread) (h : threadInv t) :
    threadInv (xnpod_unblock_thread t).thread := by
  simp only [xnpod_unblock_thread]
  split_ifs with h1 h2
  · exact resume_preserves_inv t {XNDELAY} h
  · exact resume_preserves_inv t {XNPEND} h
  · exact h

/-- xnpod_start_thread preserves the thread invariant. -/
theorem start_preserves_inv (t : XnThread) (mode : Finset StateBit) (imask : Int)
    (affinity : Finset Nat) (entry cookie : Nat) (online nkaff : Finset Nat)
    (ishield hooks : Bool) (h : threadInv t) :
    threadInv (xnpod_start_thread t mode imask affinity entry cookie
        online nkaff ishield hooks).thread := by
  obtain ⟨hrb, hpw⟩ := h
  simp only [xnpod_start_thread]
  by_cases hdorm : XNDORMANT ∉ t.state
  · rw [if_pos hdorm]
    exact ⟨hrb, hpw⟩
  · rw [if_neg hdorm]
    have hdin : XNDORMANT ∈ t.state := not_not.mp hdorm
    have hReady : XNREADY ∉ t.state := fun hr =>
      Finset.eq_empty_iff_forall_not_mem.mp (hrb hr) XNDORMANT
        (Finset.mem_inter.mpr ⟨hdin, by decide⟩)
    have core : ∀ (mm : Finset StateBit) (t3 : XnThread),
        t3.state = t.state ∪ (mm ∩ (XNTHREAD_MODE_BITS ∪ {XNSUSP})) ∪ {XNSTARTED} →
        t3.wchan = t.wchan → threadInv t3 := by
      intro mm t3 hstate hwchan
      constructor
      · intro hr
        rw [hstate] at hr
        rcases Finset.mem_union.mp hr with hr1 | hr2
        · rcases Finset.mem_union.mp hr1 with hr3 | hr4
          · exact absurd hr3 hReady
          · rcases Finset.mem_union.mp (Finset.mem_inter.mp hr4).2 with h5 | h5
            · exact absurd h5 (by decide)
            · exact absurd (Finset.mem_singleton.mp h5) (by decide)
        · exact absurd (Finset.mem_singleton.mp hr2) (by decide)
      · intro hp
        rw [hstate] at hp
        rw [hwchan]
        rcases Finset.mem_union.mp hp with hp1 | hp2
        · rcases Finset.mem_union.mp hp1 with hp3 | hp4
          · exact hpw hp3
          · rcases Finset.mem_union.mp (Finset.mem_inter.mp hp4).2 with h5 | h5
            · exact absurd h5 (by decide)
            · exact absurd (Finset.mem_singleton.mp h5) (by decide)
        · exact absurd (Finset.mem_singleton.mp hp2) (by decide)
    split_ifs <;>
      first
        | exact ⟨hrb, hpw⟩
        | exact core _ _ rfl rfl
        | exact resume_preserves_inv _ {XNDORMANT} (core _ _ rfl rfl)

/-- xnpod_delete_thread preserves the thread invariant. -/
theorem delete_preserves_inv (t : XnThread) (tid : Nat) (pod : XnPod)
    (sched : XnSched) (isCurr usp hooks : Bool) (h : threadInv t) :
    threadInv (xnpod_delete_thread t tid pod sched isCurr usp hooks).thread := by
  obtain ⟨hrb, hpw⟩ := h
  have core : ∀ t3 : XnThread, t3.state = ((if XNPEND ∈ (if XNREADY ∈ t.state
          then t.state \ {XNREADY} else t.state) then
        (if XNREADY ∈ t.state then t.state \ {XNREADY} else t.state) \ {XNPEND}
      else (if XNREADY ∈ t.state then t.state \ {XNREADY} else t.state)) ∪ {XNZOMBIE}) →
      t3.wchan = (if XNPEND ∈ (if XNREADY ∈ t.state
          then t.state \ {XNREADY} else t.state) then none else t.wchan) →
      threadInv t3 := by
    intro t3 hstate hwchan
    constructor
    · intro hr
      rw [hstate] at hr
      rcases Finset.mem_union.mp hr with hr1 | hr2
      · have hr3 : XNREADY ∈ (if XNREADY ∈ t.state
            then t.state \ {XNREADY} else t.state) := by
          by_cases hq : XNPEND ∈ (if XNREADY ∈ t.state
              then t.state \ {XNREADY} else t.state)
          · rw [if_pos hq] at hr1
            exact (Finset.mem_sdiff.mp hr1).1
          · rw [if_neg hq] at hr1
            exact hr1
        by_cases hq2 : XNREADY ∈ t.state
        · rw [if_pos hq2] at hr3
          exact absurd (Finset.mem_sdiff.mp hr3).2 (by simp)
        · rw [if_neg hq2] at hr3
          exact absurd hr3 hq2
      · exact absurd (Finset.mem_singleton.mp hr2) (by decide)
    · intro hp
      rw [hstate] at hp
      rw [hwchan]
      rcases Finset.mem_union.mp hp with hp1 | hp2
      · by_cases hq : XNPEND ∈ (if XNREADY ∈ t.state
            then t.state \ {XNREADY} else t.state)
        · rw [if_pos hq] at hp1
          exact absurd (Finset.mem_sdiff.mp hp1).2 (by simp)
        · rw [if_neg hq] at hp1
          exact absurd hp1 hq
      · exact absurd (Finset.mem_singleton.mp hp2) (by decide)
  simp only [xnpod_delete_thread]
  split_ifs <;>
    first
      | exact ⟨hrb, hpw⟩
      | (apply core <;> simp_all [xnsynch_forget_sleeper])

/-- Each admissible operation preserves the thread invariant. -/
theorem applyOp_preserves_inv (op : PodOp) (t : XnThread)
    (h : threadInv t) (ha : AdmissibleOp op) : threadInv (applyOp op t) := by
  cases op with
  | suspend mask timeout tmode wchan isCurr pastDeadline =>
      exact suspend_preserves_inv t mask timeout tmode wchan isCurr pastDeadline h ha.1 ha.2
  | resume mask => exact resume_preserves_inv t mask h
  | unblock => exact unblock_preserves_inv t h
  | start mode imask affinity entry cookie online nkaff ishield hooks =>
      exact start_preserves_inv t mode imask affinity entry cookie online nkaff
        ishield hooks h
  | delete tid pod sched isCurr usp hooks =>
      exact delete_preserves_inv t tid pod sched isCurr usp hooks h

/-- C1: under any sequence of admissible suspend / resume / unblock /
start / delete operations starting from a thread satisfying the
documented invariants, the resulting state never has XNREADY set
together with any bit of XNTHREAD_BLOCK_BITS: suspension dequeues and
clears READY before OR-ing the mask, and resume sets READY only once
all blocking bits are clear. -/
theorem ready_never_with_block_bits (t : XnThread) (ops : List PodOp)
    (h0 : threadInv t) (hadm : ∀ op ∈ ops, AdmissibleOp op) :
    XNREADY ∈ (applyOps ops t).state →
      (applyOps ops t).state ∩ XNTHREAD_BLOCK_BITS = ∅ := by
  suffices hs : threadInv (applyOps ops t) from hs.1
  induction ops generalizing t with
  | nil => exact h0
  | cons op rest ih =>
      exact ih (applyOp op t)
        (applyOp_preserves_inv op t h0 (hadm op (List.mem_cons_self op rest)))
        (fun o ho => hadm o (List.mem_cons_of_mem op ho))

/-- Concrete run of the C1 theorem: a dormant thread resumed, suspended
with a timed pend, then unblocked. -/
theorem ready_never_with_block_bits_witness :
    (applyOps
        [PodOp.resume {XNDORMANT},
         PodOp.suspend {XNPEND} 10 XnTmode.XN_RELATIVE (some 7) true false,
         PodOp.unblock] tDormant).state ∩ XNTHREAD_BLOCK_BITS = ∅ :=
  ready_never_with_block_bits tDormant
    [PodOp.resume {XNDORMANT},
     PodOp.suspend {XNPEND} 10 XnTmode.XN_RELATIVE (some 7) true false,
     PodOp.unblock]
    (by decide) (by decide) (by decide)

/-- xnpod_resume_thread never touches the info mask. -/
theorem resume_thread_info (t : XnThread) (mask : Finset StateBit) :
    (xnpod_resume_thread t mask).thread.info = t.info := by
  simp only [xnpod_resume_thread, resumeEnqueue, xnsynch_forget_sleeper]
  split_ifs <;> rfl

/-- Resuming the XNDELAY condition clears it for good. -/
theorem resume_delay_not_mem (t : XnThread) (h : XNDELAY ∈ t.state) :
    XNDELAY ∉ (xnpod_resume_thread t {XNDELAY}).thread.state := by
  have h1 : ¬(t.state ∩ XNTHREAD_BLOCK_BITS = ∅) := fun he =>
    Finset.eq_empty_iff_forall_not_mem.mp he XNDELAY
      (Finset.mem_inter.mpr ⟨h, by decide⟩)
  simp only [xnpod_resume_thread, resumeEnqueue, xnsynch_forget_sleeper, if_neg h1]
  split_ifs <;> simp

/-- Resuming the XNPEND condition of a non-delayed thread clears it. -/
theorem resume_pend_not_mem (t : XnThread) (hd : XNDELAY ∉ t.state)
    (hp : XNPEND ∈ t.state) :
    XNPEND ∉ (xnpod_resume_thread t {XNPEND}).thread.state := by
  have h1 : ¬(t.state ∩ XNTHREAD_BLOCK_BITS = ∅) := fun he =>
    Finset.eq_empty_iff_forall_not_mem.mp he XNPEND
      (Finset.mem_inter.mpr ⟨hp, by decide⟩)
  have hd1 : XNDELAY ∉ t.state \ ({XNPEND} : Finset StateBit) := fun hx =>
    hd (Finset.mem_sdiff.mp hx).1
  simp only [xnpod_resume_thread, resumeEnqueue, xnsynch_forget_sleeper, if_neg h1]
  split_ifs <;> simp_all

/-- C4: xnpod_unblock_thread returns nonzero exactly when XNDELAY or
XNPEND was set at the time of the call, raising XNBREAK exactly on a
nonzero return (DELAY resumed in preference to PEND); with neither bit
set it returns 0 and leaves the whole thread — info mask included —
unchanged. -/
theorem unblock_thread_spec (t : XnThread) :
    ((xnpod_unblock_thread t).ret ≠ 0 ↔ (XNDELAY ∈ t.state ∨ XNPEND ∈ t.state)) ∧
    ((xnpod_unblock_thread t).ret ≠ 0 →
      (xnpod_unblock_thread t).thread.info = t.info ∪ {XNBREAK}) ∧
    ((xnpod_unblock_thread t).ret = 0 → (xnpod_unblock_thread t).thread = t) ∧
    (XNDELAY ∈ t.state → XNDELAY ∉ (xnpod_unblock_thread t).thread.state) ∧
    (XNDELAY ∉ t.state → XNPEND ∈ t.state →
      XNPEND ∉ (xnpod_unblock_thread t).thread.state) := by
  by_cases hd : XNDELAY ∈ t.state
  · simp only [xnpod_unblock_thread, if_pos hd]
    refine ⟨by simp [hd], ?_, by simp, ?_, fun h _ => absurd hd h⟩
    · intro _
      show (xnpod_resume_thread t {XNDELAY}).thread.info ∪ {XNBREAK} = t.info ∪ {XNBREAK}
      rw [resume_thread_info]
    · intro _
      exact resume_delay_not_mem t hd
  · simp only [xnpod_unblock_thread, if_neg hd]
    by_cases hp : XNPEND ∈ t.state
    · simp only [if_pos hp]
      refine ⟨by simp [hp], ?_, by simp, fun h => absurd h hd, ?_⟩
      · intro _
        show (xnpod_resume_thread t {XNPEND}).thread.info ∪ {XNBREAK} = t.info ∪ {XNBREAK}
        rw [resume_thread_info]
      · intro _ _
        exact resume_pend_not_mem t hd hp
    · simp only [if_neg hp]
      exact ⟨by simp [hd, hp], by simp, by simp, fun h => absurd h hd,
        fun _ h => absurd h hp⟩

/-- Concrete run of the C4 theorem on a thread sleeping on a timed pend. -/
theorem unblock_thread_witness :
    (xnpod_unblock_thread tDelayPend).ret ≠ 0 ∧
    (xnpod_unblock_thread tDelayPend).thread.info = tDelayPend.info ∪ {XNBREAK} := by
  have h := unblock_thread_spec tDelayPend
  have hr := h.1.mpr (Or.inl (by decide))
  exact ⟨hr, h.2.1 hr⟩

/-- C3 counterexample: a runnable thread carrying the XNBREAK info bit,
suspended by its own CPU with an already-elapsed absolute deadline,
comes back with XNBREAK dropped from its info mask (not "only TIMEO
added") and with the slot's resched bit raised (scheduler state did
change). -/
theorem suspend_past_deadline_counterexample :
    (xnpod_suspend_thread tBreakRunnable {XNSUSP} 5 XnTmode.XN_ABSOLUTE none
        true true).thread.info ≠ tBreakRunnable.info ∪ {XNTIMEO} ∧
    (xnpod_suspend_thread tBreakRunnable {XNSUSP} 5 XnTmode.XN_ABSOLUTE none
        true true).resched = true := by
  decide

/-- C3 amended: with an already-elapsed non-infinite deadline (and the
kicked-shadow early exit not taken, no conjunctive wait), the call
returns without blocking: the state mask is untouched, the wait channel
is attached and immediately forgotten, XNTIMEO is added to the info
mask — after the pending wake-up info bits (RMID, TIMEO, BREAK, WAKEN,
ROBBED) are first cleared when the thread was runnable — the slot's
resched bit is set exactly when the target is the current thread, and
neither the rescheduler nor the shadow layer is entered. -/
theorem suspend_past_deadline_frame (t : XnThread) (mask : Finset StateBit)
    (timeout : Nat) (tmode : XnTmode) (wchan : Option Nat) (isCurr : Bool)
    (harm : timeout ≠ XN_INFINITE ∨ tmode ≠ XnTmode.XN_RELATIVE)
    (hkick : ¬(t.state ∩ XNTHREAD_BLOCK_BITS = ∅ ∧ XNKICKED ∈ t.info))
    (hw : wchan.isSome = true → t.wchan = none ∧ XNPEND ∉ t.state) :
    (xnpod_suspend_thread t mask timeout tmode wchan isCurr true).thread.state
        = t.state ∧
    (xnpod_suspend_thread t mask timeout tmode wchan isCurr true).thread.wchan
        = (if wchan.isSome then none else t.wchan) ∧
    (xnpod_suspend_thread t mask timeout tmode wchan isCurr true).thread.info
        = (if t.state ∩ XNTHREAD_BLOCK_BITS = ∅
            then t.info \ {XNRMID, XNTIMEO, XNBREAK, XNWAKEN, XNROBBED}
            else t.info) ∪ {XNTIMEO} ∧
    (xnpod_suspend_thread t mask timeout tmode wchan isCurr true).resched = isCurr ∧
    (xnpod_suspend_thread t mask timeout tmode wchan isCurr true).scheduled = false ∧
    (xnpod_suspend_thread t mask timeout tmode wchan isCurr true).shadowSignalled
        = false := by
  have hps : wchan.isSome = true → t.state \ ({XNPEND} : Finset StateBit) = t.state := by
    intro hs
    rw [Finset.sdiff_eq_self_iff_disjoint, Finset.disjoint_singleton_right]
    exact (hw hs).2
  simp only [xnpod_suspend_thread, if_neg hkick]
  by_cases hc : t.state ∩ XNTHREAD_BLOCK_BITS = ∅
  · rw [if_pos hc]
    simp only [suspendTimer, if_pos harm]
    rw [if_pos trivial]
    by_cases hs : wchan.isSome = true
    · simp [hs, xnsynch_forget_sleeper, hps hs, hc]
    · simp [hs, hc]
  · rw [if_neg hc]
    simp only [suspendTimer, if_pos harm]
    rw [if_pos trivial]
    by_cases hs : wchan.isSome = true
    · simp [hs, xnsynch_forget_sleeper, hps hs, hc]
    · simp [hs, hc]

/-- Concrete run of the C3 amended theorem: the state mask survives a
past-deadline suspend untouched. -/
theorem suspend_past_deadline_frame_witness :
    (xnpod_suspend_thread tBreakRunnable {XNSUSP} 5 XnTmode.XN_ABSOLUTE none
        false true).thread.state = tBreakRunnable.state :=
  (suspend_past_deadline_frame tBreakRunnable {XNSUSP} 5 XnTmode.XN_ABSOLUTE none false
    (Or.inl (by decide)) (by decide) (by decide)).1

/-- C6 counterexample: a thread that is DORMANT but already STARTED,
started with an empty effective affinity, is refused with -EINVAL —
not the -EBUSY the claim promises for an already-started thread. -/
theorem start_thread_counterexample :
    XNSTARTED ∈ tDormantStarted.state ∧
    (xnpod_start_thread tDormantStarted ∅ 0 ∅ 0 0 {0} {0} true false).err = -EINVAL ∧
    (xnpod_start_thread tDormantStarted ∅ 0 ∅ 0 0 {0} {0} true false).err ≠ -EBUSY := by
  decide

/-- C6 amended: xnpod_start_thread fails with -EBUSY on a non-DORMANT
thread; on a DORMANT thread it fails with -EINVAL when the requested
affinity intersected with the pod affinity mask and the online-CPU map
is empty (this check precedes and overrides the started check), and
with -EBUSY when that intersection is nonempty but the thread is
already STARTED; in every failure case the call neither sets XNSTARTED
nor releases XNDORMANT. -/
theorem start_thread_error_cases (t : XnThread) (mode : Finset StateBit)
    (imask : Int) (affinity : Finset Nat) (entry cookie : Nat)
    (online nkaff : Finset Nat) (ishield hooks : Bool) :
    (XNDORMANT ∉ t.state →
      (xnpod_start_thread t mode imask affinity entry cookie online nkaff
          ishield hooks).err = -EBUSY ∧
      (xnpod_start_thread t mode imask affinity entry cookie online nkaff
          ishield hooks).thread = t) ∧
    (XNDORMANT ∈ t.state → affinity ∩ nkaff ∩ online = ∅ →
      (xnpod_start_thread t mode imask affinity entry cookie online nkaff
          ishield hooks).err = -EINVAL) ∧
    (XNDORMANT ∈ t.state → affinity ∩ nkaff ∩ online ≠ ∅ → XNSTARTED ∈ t.state →
      (xnpod_start_thread t mode imask affinity entry cookie online nkaff
          ishield hooks).err = -EBUSY) ∧
    ((xnpod_start_thread t mode imask affinity entry cookie online nkaff
          ishield hooks).err ≠ 0 →
      (XNSTARTED ∈ (xnpod_start_thread t mode imask affinity entry cookie online
          nkaff ishield hooks).thread.state ↔ XNSTARTED ∈ t.state) ∧
      (XNDORMANT ∈ (xnpod_start_thread t mode imask affinity entry cookie online
          nkaff ishield hooks).thread.state ↔ XNDORMANT ∈ t.state)) := by
  simp only [xnpod_start_thread]
  by_cases hdorm : XNDORMANT ∉ t.state
  · rw [if_pos hdorm]
    exact ⟨fun _ => ⟨rfl, rfl⟩, fun h => absurd h hdorm, fun h => absurd h hdorm,
      fun _ => ⟨Iff.rfl, Iff.rfl⟩⟩
  · rw [if_neg hdorm]
    have hdin : XNDORMANT ∈ t.state := not_not.mp hdorm
    by_cases haff : affinity ∩ nkaff ∩ online = ∅
    · rw [if_pos haff]
      exact ⟨fun h => absurd hdin h, fun _ _ => rfl, fun _ hne => absurd haff hne,
        fun _ => ⟨Iff.rfl, Iff.rfl⟩⟩
    · rw [if_neg haff]
      by_cases hstarted : XNSTARTED ∈ t.state
      · rw [if_pos hstarted]
        exact ⟨fun h => absurd hdin h, fun _ h => absurd h haff, fun _ _ _ => rfl,
          fun _ => ⟨Iff.rfl, Iff.rfl⟩⟩
      · rw [if_neg hstarted]
        refine ⟨fun h => absurd hdin h, fun _ h => absurd h haff,
          fun _ _ h => absurd h hstarted, ?_⟩
        intro h
        exfalso
        apply h
        split_ifs <;> rfl

/-- Concrete run of the C6 amended theorem: starting a non-dormant
thread is refused with -EBUSY and changes nothing. -/
theorem start_thread_error_cases_witness :
    (xnpod_start_thread tBreakRunnable ∅ 0 {0} 0 0 {0} {0} true false).err = -EBUSY ∧
    (xnpod_start_thread tBreakRunnable ∅ 0 {0} 0 0 {0} {0} true false).thread
        = tBreakRunnable :=
  (start_thread_error_cases tBreakRunnable ∅ 0 {0} 0 0 {0} {0} true false).1 (by decide)

end XenoPod
